import Mathlib

/-!
Verification of the `controla` library (`controlAsyncFunction` and
`controlSingleFlight`) against its natural-language specification.

The two source functions are shallowly embedded as explicit state machines.
JavaScript promises and timers are modelled by an event-delivery semantics:
every asynchronous callback (promise settlement, timer callback, abort-event
dispatch) is an event consumed by a step function, and the synchronous body
of each callback is translated literally into the step function.  The event
loop is single threaded, so a trace (a list of events) fully determines the
final state.
-/

namespace Controla

/-- JavaScript values as far as the library inspects them: an `Error` object
carrying a message, or any other value, represented by the string that
`String(v)` would produce for it.  The library only ever distinguishes
values by `instanceof Error` and converts non-errors with `String(...)`. -/
inductive Val where
  | error (msg : String)
  | raw (s : String)
deriving DecidableEq, Repr

/-- Translation of `err instanceof Error ? err : new Error(String(err))`
from the `catch` handler of `startFlightIfNeeded`. -/
def normalizeErr : Val → Val
  | .error m => .error m
  | .raw s => .error s

deriving instance DecidableEq for Except

/-! ## controlAsyncFunction -/

/-- Construction inputs of `controlAsyncFunction`: the `timeout` and `signal`
options.  `signalPreAborted` records the platform fact of whether the
caller-supplied `AbortSignal` was already aborted when the controller was
constructed: an `abort` event listener added to an already-aborted signal is
never invoked, because the `abort` event is dispatched only at the moment
the signal transitions to aborted. -/
structure CACOptions where
  timeout : Option Nat
  hasSignal : Bool
  signalPreAborted : Bool
deriving DecidableEq, Repr

/-- The three possible immediate outcomes of a `run()` call: rejection with
`Error("run() can only be called once")`, rejection with
`Error("already aborted")`, or returning the race promise (which settles
later, recorded in `raceResult`). -/
inductive RunOutcome where
  | alreadyStarted
  | alreadyAborted
  | race
deriving DecidableEq, Repr

/-- State of one `controlAsyncFunction` closure.  Fields mirror the local
variables of the source (`aborted`, `started`, `timeoutId` as
`timeoutArmed`, the listener registration), plus instrumentation counters
observing the calls the source makes (`clearTimeout` calls, listener
detachments, invocations of `fn`). -/
structure CACState where
  aborted : Bool
  started : Bool
  abortReason : Option Val
  raceResult : Option (Except Val Val)
  fnCalls : Nat
  opSettled : Bool
  timeoutArmed : Bool
  timeoutFired : Bool
  clearTimeoutCalls : Nat
  listenerAttached : Bool
  listenerRemovals : Nat
  runOutcomes : List RunOutcome
deriving DecidableEq, Repr

/-- Initial state: the construction body of `controlAsyncFunction` arms the
timeout when `options.timeout` is a number and registers the `abort`
listener when `options.signal` is provided. -/
def CACState.init (o : CACOptions) : CACState :=
  { aborted := false
    started := false
    abortReason := none
    raceResult := none
    fnCalls := 0
    opSettled := false
    timeoutArmed := o.timeout.isSome
    timeoutFired := false
    clearTimeoutCalls := 0
    listenerAttached := o.hasSignal
    listenerRemovals := 0
    runOutcomes := [] }

/-- Settlement of the race returned by `run()`, together with its
`.finally` block: `if (timeoutId) clearTimeout(timeoutId)` (the variable
`timeoutId` is set exactly when a timeout was configured and is never reset,
so the call happens whenever a timeout was configured) and
`options.signal.removeEventListener(...)` when a signal was provided (an
actual detachment only if the `once` firing has not already removed the
listener).  A race promise settles at most once; a later settlement attempt
is discarded. -/
def settleRace (o : CACOptions) (s : CACState) (r : Except Val Val) : CACState :=
  if s.raceResult.isSome then s
  else
    { s with
      raceResult := some r
      clearTimeoutCalls := s.clearTimeoutCalls + (if o.timeout.isSome then 1 else 0)
      timeoutArmed := false
      listenerAttached := if o.hasSignal then false else s.listenerAttached
      listenerRemovals :=
        s.listenerRemovals + (if o.hasSignal && s.listenerAttached then 1 else 0) }

/-- Translation of `safeAbort`: a no-op when already aborted; otherwise it
records the reason, aborts the internal controller, and rejects the race
only if `run()` has already created it (`abortResolvers` exists exactly when
a run has started). -/
def safeAbort (o : CACOptions) (s : CACState) (reason : Val) : CACState :=
  if s.aborted then s
  else
    let s1 := { s with aborted := true, abortReason := some reason }
    if s1.started then settleRace o s1 (.error reason) else s1

/-- Events delivered to a controller by the event loop: a `run()` call, a
manual `abort(reason)` call, the dispatch of the external signal's `abort`
event, the firing of the armed timeout callback, and the settlement of the
wrapped operation's promise. -/
inductive CEvent where
  | runCall
  | abortCall (reason : Val)
  | signalFire
  | timeoutFire
  | opResolve (v : Val)
  | opReject (e : Val)
deriving DecidableEq, Repr

/-- One step of the controller.  `runCall` is the literal body of `run()`;
`timeoutFire` is delivered by the scheduler but has an effect only while the
timer is still armed (a cleared timer's callback never runs);
`signalFire` invokes the listener only if it is still attached and the
signal was not already aborted at construction; the wrapped operation's
settlement feeds the race only once. -/
def cacStep (o : CACOptions) (s : CACState) : CEvent → CACState
  | .runCall =>
    if s.started then { s with runOutcomes := s.runOutcomes ++ [.alreadyStarted] }
    else if s.aborted then { s with runOutcomes := s.runOutcomes ++ [.alreadyAborted] }
    else
      { s with
        started := true
        fnCalls := s.fnCalls + 1
        runOutcomes := s.runOutcomes ++ [.race] }
  | .abortCall reason => safeAbort o s reason
  | .signalFire =>
    if s.listenerAttached && !o.signalPreAborted then
      safeAbort o
        { s with
          listenerAttached := false
          listenerRemovals := s.listenerRemovals + 1 }
        (.error "external abort")
    else s
  | .timeoutFire =>
    if s.timeoutArmed then
      safeAbort o { s with timeoutArmed := false, timeoutFired := true } (.error "timeout")
    else s
  | .opResolve v =>
    if s.started && !s.opSettled then
      settleRace o { s with opSettled := true } (.ok v)
    else s
  | .opReject e =>
    if s.started && !s.opSettled then
      settleRace o { s with opSettled := true } (.error e)
    else s

/-- Run a controller from construction through a list of events. -/
def cacTrace (o : CACOptions) (es : List CEvent) : CACState :=
  es.foldl (cacStep o) (CACState.init o)

/-- Inductive invariant of the controller machine: the wrapped function has
been invoked at most once, and exactly when `started` is set; `clearTimeout`
has been called exactly once if the race has settled and a timeout was
configured, and never otherwise; the external listener is attached exactly
while no detachment has happened; detachments never exceed one, and a
settled race with a configured signal has detached the listener exactly
once. -/
structure CacGood (o : CACOptions) (s : CACState) : Prop where
  fn_le : s.fnCalls ≤ 1
  started_iff : s.started = true ↔ s.fnCalls = 1
  clear_eq : s.clearTimeoutCalls = if (s.raceResult.isSome && o.timeout.isSome) = true then 1 else 0
  listener_iff : s.listenerAttached = true ↔ (o.hasSignal = true ∧ s.listenerRemovals = 0)
  removals_le : s.listenerRemovals ≤ 1
  settled_removed : s.raceResult.isSome = true → o.hasSignal = true → s.listenerRemovals = 1

lemma cacGood_init (o : CACOptions) : CacGood o (CACState.init o) := by
  constructor <;> simp [CACState.init]

lemma cacGood_settleRace (o : CACOptions) {s : CACState} (h : CacGood o s)
    (r : Except Val Val) : CacGood o (settleRace o s r) := by
  unfold settleRace
  by_cases hr : s.raceResult.isSome = true
  · rw [if_pos hr]; exact h
  · rw [if_neg hr]
    have hr0 : s.raceResult.isSome = false := by
      cases hv : s.raceResult.isSome
      · rfl
      · exact absurd hv hr
    refine ⟨h.fn_le, h.started_iff, ?_, ?_, ?_, ?_⟩
    · have hc := h.clear_eq
      rw [hr0] at hc
      simp only [Bool.false_and] at hc
      simp only [Option.isSome_some, Bool.true_and]
      by_cases ht : o.timeout.isSome = true <;> simp [ht, hc]
    · by_cases hsg : o.hasSignal = true
      · simp only [hsg, if_pos]
        constructor
        · intro hct; exact absurd hct (by simp)
        · rintro ⟨-, hzero⟩
          by_cases ha : s.listenerAttached = true
          · have := (h.listener_iff.mp ha).2
            simp [ha, this] at hzero
          · have hne : s.listenerRemovals ≠ 0 := by
              intro h0
              exact ha (h.listener_iff.mpr ⟨hsg, h0⟩)
            have ha0 : s.listenerAttached = false := by
              cases hv : s.listenerAttached
              · rfl
              · exact absurd hv ha
            simp [ha0] at hzero
            exact (hne hzero).elim
      · have hsg0 : o.hasSignal = false := by
          cases hv : o.hasSignal
          · rfl
          · exact absurd hv hsg
        simp only [hsg0, Bool.false_and, if_neg Bool.false_ne_true]
        constructor
        · intro ha; exact absurd ((h.listener_iff.mp ha).1) (by simp [hsg0])
        · rintro ⟨hcontra, -⟩; exact absurd hcontra (by simp)
    · by_cases hb : (o.hasSignal && s.listenerAttached) = true
      · simp only [hb, if_pos]
        have ha : s.listenerAttached = true := by
          rcases Bool.and_eq_true_iff.mp hb with ⟨-, h2⟩; exact h2
        have := (h.listener_iff.mp ha).2
        omega
      · simp only [hb, if_neg Bool.false_ne_true]
        simpa using h.removals_le
    · intro _ hsg
      by_cases ha : s.listenerAttached = true
      · have := (h.listener_iff.mp ha).2
        simp [hsg, ha, this]
      · have hne : s.listenerRemovals ≠ 0 := by
          intro h0
          exact ha (h.listener_iff.mpr ⟨hsg, h0⟩)
        have ha0 : s.listenerAttached = false := by
          cases hv : s.listenerAttached
          · rfl
          · exact absurd hv ha
        have hle := h.removals_le
        simp only [ha0, Bool.and_false, if_neg Bool.false_ne_true]
        omega

lemma cacGood_safeAbort (o : CACOptions) {s : CACState} (h : CacGood o s)
    (r : Val) : CacGood o (safeAbort o s r) := by
  unfold safeAbort
  by_cases hA : s.aborted = true
  · rw [if_pos hA]; exact h
  · rw [if_neg hA]
    have h1 : CacGood o { s with aborted := true, abortReason := some r } :=
      ⟨h.fn_le, h.started_iff, h.clear_eq, h.listener_iff, h.removals_le, h.settled_removed⟩
    by_cases hS : s.started = true
    · rw [if_pos (show ({ s with aborted := true, abortReason := some r } : CACState).started = true from hS)]
      exact cacGood_settleRace o h1 _
    · rw [if_neg (show ¬ ({ s with aborted := true, abortReason := some r } : CACState).started = true from hS)]
      exact h1

lemma cacGood_step (o : CACOptions) {s : CACState} (h : CacGood o s)
    (e : CEvent) : CacGood o (cacStep o s e) := by
  cases e with
  | runCall =>
    simp only [cacStep]
    by_cases hs : s.started = true
    · rw [if_pos hs]
      exact ⟨h.fn_le, h.started_iff, h.clear_eq, h.listener_iff, h.removals_le, h.settled_removed⟩
    · rw [if_neg hs]
      by_cases ha : s.aborted = true
      · rw [if_pos ha]
        exact ⟨h.fn_le, h.started_iff, h.clear_eq, h.listener_iff, h.removals_le, h.settled_removed⟩
      · rw [if_neg ha]
        have hfn : s.fnCalls = 0 := by
          have h1 := h.fn_le
          have h2 : s.fnCalls ≠ 1 := fun hc => hs (h.started_iff.mpr hc)
          omega
        refine ⟨?_, ?_, h.clear_eq, h.listener_iff, h.removals_le, h.settled_removed⟩
        · show s.fnCalls + 1 ≤ 1
          omega
        · show true = true ↔ s.fnCalls + 1 = 1
          exact ⟨fun _ => by omega, fun _ => rfl⟩
  | abortCall r => exact cacGood_safeAbort o h r
  | signalFire =>
    simp only [cacStep]
    by_cases hg : (s.listenerAttached && !o.signalPreAborted) = true
    · rw [if_pos hg]
      have ha : s.listenerAttached = true := (Bool.and_eq_true_iff.mp hg).1
      have hz := (h.listener_iff.mp ha).2
      have hsg := (h.listener_iff.mp ha).1
      refine cacGood_safeAbort o ?_ _
      refine ⟨h.fn_le, h.started_iff, h.clear_eq, ?_, ?_, ?_⟩
      · show false = true ↔ (o.hasSignal = true ∧ s.listenerRemovals + 1 = 0)
        constructor
        · intro hct; exact absurd hct (by simp)
        · rintro ⟨-, hzero⟩; omega
      · show s.listenerRemovals + 1 ≤ 1
        omega
      · intro _ _
        show s.listenerRemovals + 1 = 1
        omega
    · rw [if_neg hg]; exact h
  | timeoutFire =>
    simp only [cacStep]
    by_cases hg : s.timeoutArmed = true
    · rw [if_pos hg]
      refine cacGood_safeAbort o ?_ _
      exact ⟨h.fn_le, h.started_iff, h.clear_eq, h.listener_iff, h.removals_le, h.settled_removed⟩
    · rw [if_neg hg]; exact h
  | opResolve v =>
    simp only [cacStep]
    by_cases hg : (s.started && !s.opSettled) = true
    · rw [if_pos hg]
      refine cacGood_settleRace o ?_ _
      exact ⟨h.fn_le, h.started_iff, h.clear_eq, h.listener_iff, h.removals_le, h.settled_removed⟩
    · rw [if_neg hg]; exact h
  | opReject e =>
    simp only [cacStep]
    by_cases hg : (s.started && !s.opSettled) = true
    · rw [if_pos hg]
      refine cacGood_settleRace o ?_ _
      exact ⟨h.fn_le, h.started_iff, h.clear_eq, h.listener_iff, h.removals_le, h.settled_removed⟩
    · rw [if_neg hg]; exact h

lemma cacGood_foldl (o : CACOptions) (es : List CEvent) {s : CACState}
    (h : CacGood o s) : CacGood o (es.foldl (cacStep o) s) := by
  induction es generalizing s with
  | nil => exact h
  | cons e es ih => exact ih (cacGood_step o h e)

lemma cacGood_trace (o : CACOptions) (es : List CEvent) : CacGood o (cacTrace o es) :=
  cacGood_foldl o es (cacGood_init o)

lemma cacTrace_append (o : CACOptions) (es : List CEvent) (e : CEvent) :
    cacTrace o (es ++ [e]) = cacStep o (cacTrace o es) e := by
  unfold cacTrace
  rw [List.foldl_append]
  rfl

/-- Settlement of the wrapped operation, as the event feeding the race. -/
def timedSettle : Except Val Val → CEvent
  | .ok v => .opResolve v
  | .error e => .opReject e

/-- Timed scenario for a controller constructed with `timeout = T` whose
`run()` is called at time 0 and whose wrapped operation settles at time
`ts`: the scheduler delivers the events in timestamp order.  The timeout
callback is delivered at its due time `T` in either case; `cacStep` makes
it a no-op when the timer has already been cleared, which is exactly the
semantics of `clearTimeout`. -/
def timeoutScenario (T ts : Nat) (out : Except Val Val) : List CEvent :=
  if ts < T then [.runCall, timedSettle out, .timeoutFire]
  else [.runCall, .timeoutFire, timedSettle out]

lemma cacGood_fnCalls_zero {o : CACOptions} {s : CACState} (h : CacGood o s)
    (hs : s.started = false) : s.fnCalls = 0 := by
  have h1 := h.fn_le
  have h2 : s.fnCalls ≠ 1 := fun hc => by
    rw [h.started_iff.mpr hc] at hs
    exact Bool.noConfusion hs
  omega

/-- C2 (counterexample): a controller whose external signal was already
aborted at construction time never observes that cancellation, because an
`abort` listener added to an already-aborted `AbortSignal` is never
invoked.  Calling `run()` on such a controller does not reject with
`AlreadyAborted`: it starts normally and invokes the wrapped operation,
contradicting the claim's "(or was already aborted)" case. -/
theorem run_preAbortedSignal_counterexample :
    (cacTrace ⟨none, true, true⟩ [.runCall]).runOutcomes = [.race]
    ∧ (cacTrace ⟨none, true, true⟩ [.runCall]).fnCalls = 1
    ∧ (cacTrace ⟨none, true, true⟩ [.runCall]).aborted = false := by
  decide

/-- C2 (amended): if cancellation was recorded before `run()` — via a prior
`abort(reason)` call or via the external signal firing after the controller
was constructed — then `run()` rejects with `AlreadyAborted`, changes no
other state, and the wrapped operation is never invoked.  (An external
signal that was already aborted before construction is not detected.) -/
theorem run_afterAbort_rejects (o : CACOptions) (es : List CEvent)
    (hs : (cacTrace o es).started = false) (ha : (cacTrace o es).aborted = true) :
    cacTrace o (es ++ [.runCall])
      = { cacTrace o es with
          runOutcomes := (cacTrace o es).runOutcomes ++ [.alreadyAborted] }
    ∧ (cacTrace o (es ++ [.runCall])).fnCalls = 0 := by
  have hstep : cacTrace o (es ++ [.runCall])
      = cacStep o (cacTrace o es) .runCall := cacTrace_append o es .runCall
  have hne : ¬ (cacTrace o es).started = true := by
    rw [hs]; exact Bool.noConfusion
  constructor
  · rw [hstep]
    simp only [cacStep]
    rw [if_neg hne, if_pos ha]
  · rw [hstep]
    simp only [cacStep]
    rw [if_neg hne, if_pos ha]
    show (cacTrace o es).fnCalls = 0
    exact cacGood_fnCalls_zero (cacGood_trace o es) hs

/-- C2 (witness): aborting with reason `"pre"` before `run()` makes the
subsequent `run()` reject with `AlreadyAborted` without invoking the
wrapped function. -/
theorem run_afterAbort_rejects_witness :
    (cacTrace ⟨none, false, false⟩ ([.abortCall (.raw "pre")] ++ [.runCall])).runOutcomes
      = [RunOutcome.alreadyAborted]
    ∧ (cacTrace ⟨none, false, false⟩ ([.abortCall (.raw "pre")] ++ [.runCall])).fnCalls = 0 := by
  have h := run_afterAbort_rejects ⟨none, false, false⟩ [.abortCall (.raw "pre")]
    (by decide) (by decide)
  refine ⟨?_, h.2⟩
  rw [h.1]
  decide

/-- C3 (counterexample): when cancellation is recorded before `run()`, the
subsequent `run()` rejects with `AlreadyAborted` without creating the race,
so its `finally` cleanup never runs: with a configured timeout and an
external signal, `clearTimeout` is never called (the timer stays armed) and
the listener stays attached.  This contradicts the claim's "including
cancellation recorded before run()" case. -/
theorem cleanup_preAbort_counterexample :
    (cacTrace ⟨some 5, true, false⟩ [.abortCall (.raw "pre"), .runCall]).runOutcomes
      = [RunOutcome.alreadyAborted]
    ∧ (cacTrace ⟨some 5, true, false⟩ [.abortCall (.raw "pre"), .runCall]).clearTimeoutCalls = 0
    ∧ (cacTrace ⟨some 5, true, false⟩ [.abortCall (.raw "pre"), .runCall]).timeoutArmed = true
    ∧ (cacTrace ⟨some 5, true, false⟩ [.abortCall (.raw "pre"), .runCall]).listenerAttached = true := by
  decide

/-- C3 (amended): cleanup is tied to the settlement of the race a started
`run()` creates, and is exactly-once there: over every event trace,
`clearTimeout` has been called exactly once if the race has settled and a
timeout was configured (and never otherwise); the external listener has
been detached at most once, and exactly once whenever the race has settled
with a signal configured (the detachment may be the listener's own `once`
firing, in which case the `finally` call to `removeEventListener` is a
no-op).  When cancellation was recorded before `run()`, no race exists and
no cleanup happens. -/
theorem cleanup_exactly_once (o : CACOptions) (es : List CEvent) :
    ((cacTrace o es).clearTimeoutCalls
      = if ((cacTrace o es).raceResult.isSome && o.timeout.isSome) = true then 1 else 0)
    ∧ (cacTrace o es).listenerRemovals ≤ 1
    ∧ ((cacTrace o es).raceResult.isSome = true → o.hasSignal = true →
        (cacTrace o es).listenerAttached = false ∧ (cacTrace o es).listenerRemovals = 1) := by
  have h := cacGood_trace o es
  refine ⟨h.clear_eq, h.removals_le, fun hr hsg => ⟨?_, h.settled_removed hr hsg⟩⟩
  have h1 := h.settled_removed hr hsg
  cases hv : (cacTrace o es).listenerAttached
  · rfl
  · have := (h.listener_iff.mp hv).2
    omega

/-- C3 (witness): a run that settles successfully under a configured
timeout and signal performs both cleanup actions exactly once. -/
theorem cleanup_exactly_once_witness :
    (cacTrace ⟨some 5, true, false⟩ [.runCall, .opResolve (.raw "v")]).clearTimeoutCalls = 1
    ∧ (cacTrace ⟨some 5, true, false⟩ [.runCall, .opResolve (.raw "v")]).listenerAttached = false
    ∧ (cacTrace ⟨some 5, true, false⟩ [.runCall, .opResolve (.raw "v")]).listenerRemovals = 1 := by
  have h := cleanup_exactly_once ⟨some 5, true, false⟩ [.runCall, .opResolve (.raw "v")]
  have h3 := h.2.2 (by decide) (by decide)
  exact ⟨by rw [h.1]; decide, h3.1, h3.2⟩

/-- C6: for a controller constructed with `timeout = T` whose wrapped
operation settles at time `ts`: if `ts < T` the race settles with the
operation's own outcome, the timeout callback never fires and the timer has
been cleared; if `T < ts` the race rejects with `Error("timeout")`. -/
theorem run_timeout_behavior (T ts : Nat) (out : Except Val Val) :
    (ts < T →
      (cacTrace ⟨some T, false, false⟩ (timeoutScenario T ts out)).raceResult = some out
      ∧ (cacTrace ⟨some T, false, false⟩ (timeoutScenario T ts out)).timeoutFired = false
      ∧ (cacTrace ⟨some T, false, false⟩ (timeoutScenario T ts out)).clearTimeoutCalls = 1
      ∧ (cacTrace ⟨some T, false, false⟩ (timeoutScenario T ts out)).timeoutArmed = false)
    ∧ (T < ts →
      (cacTrace ⟨some T, false, false⟩ (timeoutScenario T ts out)).raceResult
        = some (Except.error (Val.error "timeout"))) := by
  constructor
  · intro hlt
    rw [timeoutScenario, if_pos hlt]
    rcases out with v | e
    · exact ⟨rfl, rfl, rfl, rfl⟩
    · exact ⟨rfl, rfl, rfl, rfl⟩
  · intro hgt
    rw [timeoutScenario, if_neg (by omega : ¬ ts < T)]
    rcases out with v | e
    · rfl
    · rfl

/-- C6 (witness): with `T = 2`, an operation resolving at time 1 wins the
race and the timer is cleared; an operation resolving at time 5 loses to
the timeout. -/
theorem run_timeout_behavior_witness :
    (cacTrace ⟨some 2, false, false⟩ (timeoutScenario 2 1 (Except.ok (Val.raw "v")))).raceResult
      = some (Except.ok (Val.raw "v"))
    ∧ (cacTrace ⟨some 2, false, false⟩ (timeoutScenario 2 5 (Except.ok (Val.raw "v")))).raceResult
      = some (Except.error (Val.error "timeout")) :=
  ⟨((run_timeout_behavior 2 1 (Except.ok (Val.raw "v"))).1 (by decide)).1,
   (run_timeout_behavior 2 5 (Except.ok (Val.raw "v"))).2 (by decide)⟩

/-- C7 (counterexample): when `abort` was called before any `run()`, the
second `run()` call rejects with `AlreadyAborted`, not `AlreadyStarted`
(the `started` flag is never set by a run that rejects early), so the claim
"the second and any later call to run() rejects with AlreadyStarted" fails
on this input. -/
theorem secondRun_counterexample :
    (cacTrace ⟨none, false, false⟩ [.abortCall (.raw "A"), .runCall, .runCall]).runOutcomes
      = [RunOutcome.alreadyAborted, RunOutcome.alreadyAborted]
    ∧ RunOutcome.alreadyAborted ≠ RunOutcome.alreadyStarted := by
  decide

/-- C7 (amended): the wrapped operation is invoked at most once over every
event trace, and once some `run()` call has actually started the operation,
every later `run()` call rejects with `AlreadyStarted` and changes nothing
else.  (If cancellation was recorded before the first `run()`, later calls
reject with `AlreadyAborted` instead.) -/
theorem run_oneShot (o : CACOptions) (es : List CEvent) :
    (cacTrace o es).fnCalls ≤ 1
    ∧ ((cacTrace o es).started = true →
        cacTrace o (es ++ [.runCall])
          = { cacTrace o es with
              runOutcomes := (cacTrace o es).runOutcomes ++ [.alreadyStarted] }) := by
  refine ⟨(cacGood_trace o es).fn_le, fun hs => ?_⟩
  rw [cacTrace_append o es .runCall]
  simp only [cacStep]
  rw [if_pos hs]

/-- C7 (witness): after a first successful `run()`, a second `run()` call
rejects with `AlreadyStarted`. -/
theorem run_oneShot_witness :
    (cacTrace ⟨none, false, false⟩ [.runCall]).fnCalls ≤ 1
    ∧ (cacTrace ⟨none, false, false⟩ ([.runCall] ++ [.runCall])).runOutcomes
      = [RunOutcome.race, RunOutcome.alreadyStarted] := by
  have h := run_oneShot ⟨none, false, false⟩ [.runCall]
  refine ⟨h.1, ?_⟩
  rw [h.2 (by decide)]
  decide

/-! ## controlSingleFlight

The coordinator is embedded as its own state machine.  The flight promise
(the chain `run().then(...).catch(...).finally(...)` stored in
`activeFlight`) always fulfils with a tuple `[error?, result?]`; its
settlement is delivered as an event carrying the underlying controller's
outcome, and the step function runs the `then`/`catch`/`finally` handlers
and then the handlers of every waiter attached to that flight (waiter
continuations are microtasks queued after the flight chain).  Timers are
kept as a list of live (not yet fired or cleared) scheduled callbacks, with
the `idleReleaseTimer` variable holding the id of the most recently armed
one.  `Symbol('flight')` identities are modelled by a counter.  Per-call
waiter cancellation and per-call timeouts are not modelled: every waiter
settles through its flight's settlement (the uncancelled path, which is the
path the claims below are about). -/

/-- Construction options of `controlSingleFlight` (callbacks are modelled
as instrumentation counters in the state). -/
structure SFConfig where
  timeout : Option Nat
  idleReleaseTime : Option Nat
  idleOnSuccessOnly : Bool
  abortFlightIfRelease : Bool
deriving DecidableEq, Repr

/-- JavaScript falsiness of the `idleReleaseTime` option: `!idleReleaseTime`
is true when the option is absent or `0`. -/
def idleFalsy : Option Nat → Bool
  | none => true
  | some n => n == 0

/-- The delay expression of the `setTimeout` armed in the flight's
`finally` block: `!idleReleaseTime || (!ok && !idleOnSuccessOnly) ? 0 :
idleReleaseTime`. -/
def idleDelay (cfg : SFConfig) (ok : Bool) : Nat :=
  if (idleFalsy cfg.idleReleaseTime || (!ok && !cfg.idleOnSuccessOnly)) = true then 0
  else cfg.idleReleaseTime.getD 0

/-- The tuple the shared flight promise fulfils with: `[undefined, res]` on
success, `[normalizedError, undefined]` on failure. -/
def tupleOf : Except Val Val → Option Val × Option Val
  | .ok v => (none, some v)
  | .error e => (some (normalizeErr e), none)

/-- What a waiter attached to the shared flight observes once the tuple
arrives: `if (err) throw err; return result` (an `Error` object is always
truthy). -/
def waiterObserve : Option Val × Option Val → Except Val (Option Val)
  | (some e, _) => .error e
  | (none, r) => .ok r

/-- Coordinator state.  The first group mirrors the closure variables of
the source (`activeFlight`, `activeController` with its signal's aborted
flag, `currentFlightId`, `awaitFlightCount`, `idleReleaseTimer`); the rest
is the scheduler bookkeeping (fresh ids, live timers, started-but-unsettled
flights, settled flight tuples) and instrumentation (waiter attachments in
call order, settled waiter results in settlement order, factory invocation
and lifecycle-callback counters, flight-controller aborts). -/
structure SFState where
  activeFlight : Option Nat
  activeController : Option Nat
  ctrlSigAborted : Bool
  currentFlightId : Option Nat
  awaitCount : Int
  timerVar : Option Nat
  liveTimers : List (Nat × Nat × Nat)
  nextFlightId : Nat
  nextTimerId : Nat
  pendingFlights : List Nat
  waiters : List (Nat × Bool)
  waiterResults : List (Except Val (Option Val))
  flightOutcomes : List (Nat × (Option Val × Option Val))
  flightFnCalls : Nat
  onReleaseCalls : Nat
  onFlightStartCalls : Nat
  onFlightEndCalls : Nat
  flightSuccessReports : List Val
  flightErrorReports : List Val
  ctrlAborts : Nat
deriving DecidableEq, Repr

/-- Initial coordinator state. -/
def SFState.init : SFState :=
  { activeFlight := none
    activeController := none
    ctrlSigAborted := false
    currentFlightId := none
    awaitCount := 0
    timerVar := none
    liveTimers := []
    nextFlightId := 0
    nextTimerId := 0
    pendingFlights := []
    waiters := []
    waiterResults := []
    flightOutcomes := []
    flightFnCalls := 0
    onReleaseCalls := 0
    onFlightStartCalls := 0
    onFlightEndCalls := 0
    flightSuccessReports := []
    flightErrorReports := []
    ctrlAborts := 0 }

/-- Translation of `releaseFlight`: clear the idle-release timer variable
(cancelling its live callback), abort the active flight's controller when
`abortFlightIfRelease` is set and its signal is not yet aborted, clear
`activeFlight` and `activeController`, and invoke `onRelease` —
unconditionally, on every call. -/
def releaseFlight (cfg : SFConfig) (s : SFState) : SFState :=
  let s1 :=
    match s.timerVar with
    | some tid =>
      { s with liveTimers := s.liveTimers.filter (fun t => t.1 != tid), timerVar := none }
    | none => s
  let s2 :=
    if (cfg.abortFlightIfRelease && s1.activeController.isSome && !s1.ctrlSigAborted) = true then
      { s1 with ctrlSigAborted := true, ctrlAborts := s1.ctrlAborts + 1 }
    else s1
  { s2 with
    activeFlight := none
    activeController := none
    onReleaseCalls := s2.onReleaseCalls + 1 }

/-- Translation of `safeReleaseForThisFlight`: release only if the captured
flight identity is still the current one.  (`releaseFlight` never clears
`currentFlightId`, so a released flight's identity remains current until a
new flight starts.) -/
def safeReleaseForThisFlight (cfg : SFConfig) (fid : Nat) (s : SFState) : SFState :=
  if s.currentFlightId = some fid then releaseFlight cfg s else s

/-- Translation of `decAwaitFlightCount`: decrement, and release the flight
immediately when the count reaches zero and no (truthy) `idleReleaseTime`
is configured. -/
def decAwaitFlightCount (cfg : SFConfig) (s : SFState) : SFState :=
  let s1 := { s with awaitCount := s.awaitCount - 1 }
  if (s1.awaitCount == 0 && idleFalsy cfg.idleReleaseTime) = true then releaseFlight cfg s1
  else s1

/-- Translation of `startFlightIfNeeded`: when no flight is active or a
refresh is requested, clear any pending idle-release timer, mint a fresh
flight identity, create the flight's `AbortController`, invoke
`onFlightStart` and start the factory through a dedicated inner controller
(whose `run()` invokes the factory immediately); the resulting promise
chain becomes `activeFlight`. -/
def startFlightIfNeeded (cfg : SFConfig) (refresh : Bool) (s : SFState) : SFState :=
  if (s.activeFlight.isNone || refresh) = true then
    let s1 :=
      match s.timerVar with
      | some tid =>
        { s with liveTimers := s.liveTimers.filter (fun t => t.1 != tid), timerVar := none }
      | none => s
    let fid := s1.nextFlightId
    { s1 with
      currentFlightId := some fid
      nextFlightId := fid + 1
      activeController := some fid
      ctrlSigAborted := false
      onFlightStartCalls := s1.onFlightStartCalls + 1
      flightFnCalls := s1.flightFnCalls + 1
      pendingFlights := s1.pendingFlights ++ [fid]
      activeFlight := some fid }
  else s

/-- The `setTimeout` in the flight's `finally` block: arm a fresh
idle-release timer for this flight with the source's delay expression and
store its handle in the `idleReleaseTimer` variable (overwriting it without
clearing). -/
def armIdleTimer (cfg : SFConfig) (fid : Nat) (ok : Bool) (s : SFState) : SFState :=
  { s with
    nextTimerId := s.nextTimerId + 1
    liveTimers := s.liveTimers ++ [(s.nextTimerId, fid, idleDelay cfg ok)]
    timerVar := some s.nextTimerId }

/-- Settlement of the waiters attached to flight `fid` once its tuple `t`
is available: each still-unsettled waiter on `fid`, in attachment order,
records `waiterObserve t` and then runs its `finally`
(`decAwaitFlightCount`).  The waiter list is threaded separately because
`decAwaitFlightCount` never touches it. -/
def settleLoop (cfg : SFConfig) (fid : Nat) (t : Option Val × Option Val) :
    List (Nat × Bool) → SFState → List (Nat × Bool) × SFState
  | [], s => ([], s)
  | w :: ws, s =>
    if (w.1 == fid && !w.2) = true then
      let s1 := { s with waiterResults := s.waiterResults ++ [waiterObserve t] }
      let s2 := decAwaitFlightCount cfg s1
      let r := settleLoop cfg fid t ws s2
      ((w.1, true) :: r.1, r.2)
    else
      let r := settleLoop cfg fid t ws s
      (w :: r.1, r.2)

/-- Settle every waiter currently attached to flight `fid`. -/
def settleWaiters (cfg : SFConfig) (fid : Nat) (t : Option Val × Option Val)
    (s : SFState) : SFState :=
  let r := settleLoop cfg fid t s.waiters s
  { r.2 with waiters := r.1 }

/-- Attachment of one `run()` caller to the current `activeFlight`: the
caller's inner controller races the shared promise; if the shared promise
has already fulfilled (idle-cache reuse) the waiter settles at once with
the recorded tuple and runs its `finally`, otherwise it stays pending until
the flight settles. -/
def attachWaiter (cfg : SFConfig) (s : SFState) : SFState :=
  match s.activeFlight with
  | none => s
  | some fid =>
    match s.flightOutcomes.lookup fid with
    | some t =>
      let s1 :=
        { s with
          waiters := s.waiters ++ [(fid, true)]
          waiterResults := s.waiterResults ++ [waiterObserve t] }
      decAwaitFlightCount cfg s1
    | none => { s with waiters := s.waiters ++ [(fid, false)] }

/-- Events delivered to the coordinator: a `run({refresh})` call, the
settlement of a started flight's inner controller with some outcome, the
firing of a live idle-release timer, and an `abortAll()` call. -/
inductive SFEvent where
  | runCall (refresh : Bool)
  | flightSettle (fid : Nat) (out : Except Val Val)
  | timerFire (tid : Nat)
  | abortAllCall
deriving DecidableEq, Repr

/-- One step of the coordinator.  `runCall` is `incAwaitFlightCount`,
`startFlightIfNeeded` and the caller attachment; `flightSettle` runs the
flight chain's `then`/`catch` (on failure: normalize, and with
`idleOnSuccessOnly` immediately safe-release this flight; report the
error), its `finally` (`onFlightEnd` and timer arming), records the tuple,
and settles the attached waiters; `timerFire` runs a live timer's
`safeReleaseForThisFlight` callback; `abortAllCall` aborts the active
controller and releases. -/
def sfStep (cfg : SFConfig) (s : SFState) : SFEvent → SFState
  | .runCall refresh =>
    let s1 := { s with awaitCount := s.awaitCount + 1 }
    let s2 := startFlightIfNeeded cfg refresh s1
    attachWaiter cfg s2
  | .flightSettle fid out =>
    if s.pendingFlights.contains fid then
      let s1 := { s with pendingFlights := s.pendingFlights.filter (fun g => g != fid) }
      let s2 :=
        match out with
        | .ok v => { s1 with flightSuccessReports := s1.flightSuccessReports ++ [v] }
        | .error e =>
          let ne := normalizeErr e
          let sA := if cfg.idleOnSuccessOnly then safeReleaseForThisFlight cfg fid s1 else s1
          { sA with flightErrorReports := sA.flightErrorReports ++ [ne] }
      let ok := match out with | .ok _ => true | .error _ => false
      let s3 := { s2 with onFlightEndCalls := s2.onFlightEndCalls + 1 }
      let s4 := armIdleTimer cfg fid ok s3
      let t := tupleOf out
      let s5 := { s4 with flightOutcomes := s4.flightOutcomes ++ [(fid, t)] }
      settleWaiters cfg fid t s5
    else s
  | .timerFire tid =>
    match s.liveTimers.find? (fun t => t.1 == tid) with
    | some tr =>
      let s1 := { s with liveTimers := s.liveTimers.filter (fun t => t.1 != tid) }
      safeReleaseForThisFlight cfg tr.2.1 s1
    | none => s
  | .abortAllCall =>
    if s.activeController.isSome then
      let s1 :=
        { s with
          ctrlSigAborted := true
          ctrlAborts := s.ctrlAborts + (if s.ctrlSigAborted then 0 else 1) }
      releaseFlight cfg s1
    else s

/-- Run the coordinator from construction through a list of events. -/
def sfTrace (cfg : SFConfig) (es : List SFEvent) : SFState :=
  es.foldl (sfStep cfg) SFState.init

@[simp] lemma releaseFlight_waiterResults (cfg : SFConfig) (s : SFState) :
    (releaseFlight cfg s).waiterResults = s.waiterResults := by
  unfold releaseFlight
  cases s.timerVar <;> dsimp only <;> split <;> rfl

@[simp] lemma releaseFlight_waiters (cfg : SFConfig) (s : SFState) :
    (releaseFlight cfg s).waiters = s.waiters := by
  unfold releaseFlight
  cases s.timerVar <;> dsimp only <;> split <;> rfl

@[simp] lemma releaseFlight_flightFnCalls (cfg : SFConfig) (s : SFState) :
    (releaseFlight cfg s).flightFnCalls = s.flightFnCalls := by
  unfold releaseFlight
  cases s.timerVar <;> dsimp only <;> split <;> rfl

@[simp] lemma releaseFlight_flightErrorReports (cfg : SFConfig) (s : SFState) :
    (releaseFlight cfg s).flightErrorReports = s.flightErrorReports := by
  unfold releaseFlight
  cases s.timerVar <;> dsimp only <;> split <;> rfl

@[simp] lemma releaseFlight_flightSuccessReports (cfg : SFConfig) (s : SFState) :
    (releaseFlight cfg s).flightSuccessReports = s.flightSuccessReports := by
  unfold releaseFlight
  cases s.timerVar <;> dsimp only <;> split <;> rfl

@[simp] lemma releaseFlight_awaitCount (cfg : SFConfig) (s : SFState) :
    (releaseFlight cfg s).awaitCount = s.awaitCount := by
  unfold releaseFlight
  cases s.timerVar <;> dsimp only <;> split <;> rfl

@[simp] lemma releaseFlight_flightOutcomes (cfg : SFConfig) (s : SFState) :
    (releaseFlight cfg s).flightOutcomes = s.flightOutcomes := by
  unfold releaseFlight
  cases s.timerVar <;> dsimp only <;> split <;> rfl

@[simp] lemma safeRelease_waiterResults (cfg : SFConfig) (fid : Nat) (s : SFState) :
    (safeReleaseForThisFlight cfg fid s).waiterResults = s.waiterResults := by
  unfold safeReleaseForThisFlight
  split <;> simp

@[simp] lemma safeRelease_waiters (cfg : SFConfig) (fid : Nat) (s : SFState) :
    (safeReleaseForThisFlight cfg fid s).waiters = s.waiters := by
  unfold safeReleaseForThisFlight
  split <;> simp

@[simp] lemma safeRelease_flightFnCalls (cfg : SFConfig) (fid : Nat) (s : SFState) :
    (safeReleaseForThisFlight cfg fid s).flightFnCalls = s.flightFnCalls := by
  unfold safeReleaseForThisFlight
  split <;> simp

@[simp] lemma safeRelease_flightErrorReports (cfg : SFConfig) (fid : Nat) (s : SFState) :
    (safeReleaseForThisFlight cfg fid s).flightErrorReports = s.flightErrorReports := by
  unfold safeReleaseForThisFlight
  split <;> simp

@[simp] lemma safeRelease_flightSuccessReports (cfg : SFConfig) (fid : Nat) (s : SFState) :
    (safeReleaseForThisFlight cfg fid s).flightSuccessReports = s.flightSuccessReports := by
  unfold safeReleaseForThisFlight
  split <;> simp

@[simp] lemma safeRelease_awaitCount (cfg : SFConfig) (fid : Nat) (s : SFState) :
    (safeReleaseForThisFlight cfg fid s).awaitCount = s.awaitCount := by
  unfold safeReleaseForThisFlight
  split <;> simp

@[simp] lemma safeRelease_flightOutcomes (cfg : SFConfig) (fid : Nat) (s : SFState) :
    (safeReleaseForThisFlight cfg fid s).flightOutcomes = s.flightOutcomes := by
  unfold safeReleaseForThisFlight
  split <;> simp

@[simp] lemma dec_waiterResults (cfg : SFConfig) (s : SFState) :
    (decAwaitFlightCount cfg s).waiterResults = s.waiterResults := by
  unfold decAwaitFlightCount
  dsimp only
  split <;> simp

@[simp] lemma dec_waiters (cfg : SFConfig) (s : SFState) :
    (decAwaitFlightCount cfg s).waiters = s.waiters := by
  unfold decAwaitFlightCount
  dsimp only
  split <;> simp

@[simp] lemma dec_flightFnCalls (cfg : SFConfig) (s : SFState) :
    (decAwaitFlightCount cfg s).flightFnCalls = s.flightFnCalls := by
  unfold decAwaitFlightCount
  dsimp only
  split <;> simp

@[simp] lemma dec_flightErrorReports (cfg : SFConfig) (s : SFState) :
    (decAwaitFlightCount cfg s).flightErrorReports = s.flightErrorReports := by
  unfold decAwaitFlightCount
  dsimp only
  split <;> simp

@[simp] lemma dec_flightSuccessReports (cfg : SFConfig) (s : SFState) :
    (decAwaitFlightCount cfg s).flightSuccessReports = s.flightSuccessReports := by
  unfold decAwaitFlightCount
  dsimp only
  split <;> simp

@[simp] lemma dec_awaitCount (cfg : SFConfig) (s : SFState) :
    (decAwaitFlightCount cfg s).awaitCount = s.awaitCount - 1 := by
  unfold decAwaitFlightCount
  dsimp only
  split <;> simp

@[simp] lemma dec_flightOutcomes (cfg : SFConfig) (s : SFState) :
    (decAwaitFlightCount cfg s).flightOutcomes = s.flightOutcomes := by
  unfold decAwaitFlightCount
  dsimp only
  split <;> simp

/-- The coordinator-state half of the C8 invariant: the shared flight and
its cancellation controller are both present or both absent. -/
def SFInv (s : SFState) : Prop :=
  s.activeFlight.isSome = s.activeController.isSome

lemma sfInv_release (cfg : SFConfig) (s : SFState) : SFInv (releaseFlight cfg s) := rfl

lemma sfInv_safeRelease (cfg : SFConfig) (fid : Nat) {s : SFState} (h : SFInv s) :
    SFInv (safeReleaseForThisFlight cfg fid s) := by
  unfold safeReleaseForThisFlight
  split
  · exact sfInv_release cfg s
  · exact h

lemma sfInv_dec (cfg : SFConfig) {s : SFState} (h : SFInv s) :
    SFInv (decAwaitFlightCount cfg s) := by
  unfold decAwaitFlightCount
  dsimp only
  split
  · exact sfInv_release cfg _
  · exact h

lemma sfInv_settleLoop (cfg : SFConfig) (fid : Nat) (t : Option Val × Option Val)
    (ws : List (Nat × Bool)) : ∀ s : SFState, SFInv s → SFInv (settleLoop cfg fid t ws s).2 := by
  induction ws with
  | nil => intro s h; exact h
  | cons w ws ih =>
    intro s h
    simp only [settleLoop]
    split
    · exact ih _ (sfInv_dec cfg h)
    · exact ih _ h

lemma sfInv_settleWaiters (cfg : SFConfig) (fid : Nat) (t : Option Val × Option Val)
    {s : SFState} (h : SFInv s) : SFInv (settleWaiters cfg fid t s) :=
  sfInv_settleLoop cfg fid t s.waiters s h

lemma sfInv_start (cfg : SFConfig) (refresh : Bool) {s : SFState} (h : SFInv s) :
    SFInv (startFlightIfNeeded cfg refresh s) := by
  unfold startFlightIfNeeded
  split
  · cases s.timerVar <;> rfl
  · exact h

lemma sfInv_attach (cfg : SFConfig) {s : SFState} (h : SFInv s) :
    SFInv (attachWaiter cfg s) := by
  unfold attachWaiter
  cases hA : s.activeFlight with
  | none => exact h
  | some fid =>
    have h2 : s.activeController.isSome = true := by
      rw [← h, hA]
      rfl
    dsimp only
    cases hL : s.flightOutcomes.lookup fid with
    | none =>
      dsimp only
      show (some fid).isSome = s.activeController.isSome
      rw [h2]
      rfl
    | some t =>
      dsimp only
      refine sfInv_dec cfg ?_
      show (some fid).isSome = s.activeController.isSome
      rw [h2]
      rfl

lemma sfInv_step (cfg : SFConfig) {s : SFState} (h : SFInv s) (e : SFEvent) :
    SFInv (sfStep cfg s e) := by
  cases e with
  | runCall refresh =>
    simp only [sfStep]
    exact sfInv_attach cfg (sfInv_start cfg refresh h)
  | flightSettle fid out =>
    simp only [sfStep]
    split
    · refine sfInv_settleWaiters cfg fid (tupleOf out) ?_
      cases out with
      | ok v => exact h
      | error e =>
        dsimp only
        split
        · exact sfInv_safeRelease cfg fid h
        · exact h
    · exact h
  | timerFire tid =>
    simp only [sfStep]
    cases hF : s.liveTimers.find? (fun t => t.1 == tid) with
    | none => exact h
    | some tr => exact sfInv_safeRelease cfg tr.2.1 h
  | abortAllCall =>
    simp only [sfStep]
    split
    · exact sfInv_release cfg _
    · exact h

lemma sfInv_foldl (cfg : SFConfig) (es : List SFEvent) {s : SFState} (h : SFInv s) :
    SFInv (es.foldl (sfStep cfg) s) := by
  induction es generalizing s with
  | nil => exact h
  | cons e es ih => exact ih (sfInv_step cfg h e)

lemma sfInv_trace (cfg : SFConfig) (es : List SFEvent) : SFInv (sfTrace cfg es) :=
  sfInv_foldl cfg es rfl

/-- The source's idle-delay expression, rewritten with the failure case
spelled out: zero when `idleReleaseTime` is unset or zero, or when the
flight failed with `idleOnSuccessOnly = false`; otherwise the configured
`idleReleaseTime`. -/
lemma idleDelay_eq (cfg : SFConfig) (ok : Bool) :
    idleDelay cfg ok =
      if (cfg.idleReleaseTime = none ∨ cfg.idleReleaseTime = some 0)
          ∨ (ok = false ∧ cfg.idleOnSuccessOnly = false) then 0
      else cfg.idleReleaseTime.getD 0 := by
  rcases cfg with ⟨t, irt, ios, ab⟩
  rcases irt with _ | n
  · simp [idleDelay, idleFalsy]
  · rcases ok <;> rcases ios <;> by_cases hn : n = 0 <;>
      simp [idleDelay, idleFalsy, hn]

/-- C1: two `run()` calls issued while no flight has settled share one
flight: the factory has been invoked exactly once, both callers are
attached as waiters of flight `0`, and when that flight settles — with any
outcome, still with exactly one factory invocation — both callers' promises
settle with the same value, `waiterObserve (tupleOf out)` (the shared
result on success, the shared normalized flight error on failure). -/
theorem singleFlight_dedup (cfg : SFConfig) (out : Except Val Val) :
    (sfTrace cfg [.runCall false, .runCall false]).flightFnCalls = 1
    ∧ (sfTrace cfg [.runCall false, .runCall false]).waiters = [(0, false), (0, false)]
    ∧ (sfTrace cfg [.runCall false, .runCall false, .flightSettle 0 out]).flightFnCalls = 1
    ∧ (sfTrace cfg [.runCall false, .runCall false, .flightSettle 0 out]).waiterResults
        = [waiterObserve (tupleOf out), waiterObserve (tupleOf out)] := by
  have h2 : sfTrace cfg [.runCall false, .runCall false]
      = ⟨some 0, some 0, false, some 0, 2, none, [], 1, 0, [0],
         [(0, false), (0, false)], [], [], 1, 0, 1, 0, [], [], 0⟩ := rfl
  have h3 : sfTrace cfg [.runCall false, .runCall false, .flightSettle 0 out]
      = sfStep cfg (sfTrace cfg [.runCall false, .runCall false]) (.flightSettle 0 out) := rfl
  refine ⟨rfl, rfl, ?_, ?_⟩
  · rw [h3, h2]
    rcases out with v | e <;>
      simp [sfStep, settleWaiters, settleLoop, armIdleTimer, tupleOf, waiterObserve,
        apply_ite SFState.flightFnCalls, apply_ite SFState.waiters]
  · rw [h3, h2]
    rcases out with v | e <;>
      simp [sfStep, settleWaiters, settleLoop, armIdleTimer, tupleOf, waiterObserve,
        normalizeErr, apply_ite SFState.waiterResults, apply_ite SFState.waiters]

/-- C4 (counterexample): with `idleReleaseTime = 5` and the default
`idleOnSuccessOnly = true`, a failing flight arms its idle-release timer
with delay `5` (the configured `idleReleaseTime`), not `0` as the claim
states for a failed flight with `idleOnSuccessOnly` true.  (The immediate
release on failure happens separately, in the `catch` handler, before the
timer is armed.) -/
theorem idle_timer_delay_counterexample :
    (sfTrace ⟨none, some 5, true, true⟩
        [.runCall false, .flightSettle 0 (.error (.raw "boom"))]).liveTimers = [(0, 0, 5)]
    ∧ (5 : Nat) ≠ 0 := by
  decide

/-- C4 (amended): the `finally` handler of a settling flight (`sfStep` on
`flightSettle` calls `armIdleTimer`) arms the idle-release timer for that
flight with delay 0 if no `idleReleaseMs` is configured (absent or zero),
or if the flight failed and `idleOnSuccessOnly` is FALSE; otherwise with
delay `idleReleaseMs`. -/
theorem idle_timer_arming (cfg : SFConfig) (fid : Nat) (ok : Bool) (s : SFState) :
    (armIdleTimer cfg fid ok s).timerVar = some s.nextTimerId
    ∧ (armIdleTimer cfg fid ok s).liveTimers
      = s.liveTimers ++ [(s.nextTimerId, fid,
          if (cfg.idleReleaseTime = none ∨ cfg.idleReleaseTime = some 0)
              ∨ (ok = false ∧ cfg.idleOnSuccessOnly = false) then 0
          else cfg.idleReleaseTime.getD 0)] := by
  refine ⟨rfl, ?_⟩
  rw [← idleDelay_eq]
  rfl

/-- C5 (counterexample): with `idleReleaseTime = 5` and `idleOnSuccessOnly
= true`, a failing flight is released immediately by the `catch` handler
(first release, `onRelease` invoked once); the idle timer armed moments
later by the `finally` still fires — `releaseFlight` never clears
`currentFlightId`, so the safe-release check passes — and the second
release invokes `onRelease` again.  The second release attempt is therefore
observable, contradicting "no observable effect". -/
theorem release_second_onRelease_counterexample :
    (sfTrace ⟨none, some 5, true, true⟩
        [.runCall false, .flightSettle 0 (.error (.raw "boom"))]).onReleaseCalls = 1
    ∧ (sfTrace ⟨none, some 5, true, true⟩
        [.runCall false, .flightSettle 0 (.error (.raw "boom")), .timerFire 0]).onReleaseCalls = 2
    ∧ (2 : Nat) ≠ 1 := by
  decide

/-- C5 (amended): a release attempt that finds the flight state already
cleared (no active flight, no active controller, no pending idle timer) is
a no-op on the coordinator state — it aborts nothing and changes no field —
except that it still invokes the `onRelease` callback once more.  Release
is idempotent on state but not silent. -/
theorem release_idempotent_on_state (cfg : SFConfig) (s : SFState)
    (h1 : s.activeFlight = none) (h2 : s.activeController = none)
    (h3 : s.timerVar = none) :
    releaseFlight cfg s = { s with onReleaseCalls := s.onReleaseCalls + 1 } := by
  rcases s with ⟨af, ac, csa, cfid, awc, tv, lt, nfi, nti, pf, ws, wr, fo, ffc, orc, ofs, ofe, fsr, fer, ca⟩
  dsimp only at h1 h2 h3
  subst h1
  subst h2
  subst h3
  simp [releaseFlight]

/-- C5 (witness): releasing from the initial (already clear) state only
bumps the `onRelease` counter. -/
theorem release_idempotent_on_state_witness :
    releaseFlight ⟨none, none, true, true⟩ SFState.init
      = { SFState.init with onReleaseCalls := SFState.init.onReleaseCalls + 1 } :=
  release_idempotent_on_state ⟨none, none, true, true⟩ SFState.init rfl rfl rfl

/-- C8: in every reachable coordinator state (every state produced by a
trace of `run`, flight settlements, timer firings and `abortAll` from the
initial state), the shared flight and its cancellation controller are both
present or both absent. -/
theorem flight_controller_both_or_neither (cfg : SFConfig) (es : List SFEvent) :
    (sfTrace cfg es).activeFlight.isSome = true
      ↔ (sfTrace cfg es).activeController.isSome = true := by
  have h := sfInv_trace cfg es
  rw [SFInv] at h
  rw [h]

/-- C9: when the factory rejects with a non-`Error` value, every waiter of
that flight observes the normalized wrapper — an `Error` whose message is
the string form of the original value — not the original value, and the
same wrapper is reported to `onFlightError`. -/
theorem flight_error_normalized (cfg : SFConfig) (msg : String) :
    (sfTrace cfg [.runCall false, .flightSettle 0 (.error (.raw msg))]).flightErrorReports
      = [Val.error msg]
    ∧ (sfTrace cfg [.runCall false, .flightSettle 0 (.error (.raw msg))]).waiterResults
      = [Except.error (Val.error msg)]
    ∧ Val.error msg ≠ Val.raw msg := by
  have h1 : sfTrace cfg [.runCall false]
      = ⟨some 0, some 0, false, some 0, 1, none, [], 1, 0, [0],
         [(0, false)], [], [], 1, 0, 1, 0, [], [], 0⟩ := rfl
  have h2 : sfTrace cfg [.runCall false, .flightSettle 0 (.error (.raw msg))]
      = sfStep cfg (sfTrace cfg [.runCall false]) (.flightSettle 0 (.error (.raw msg))) := rfl
  refine ⟨?_, ?_, fun h => Val.noConfusion h⟩
  · rw [h2, h1]
    simp [sfStep, settleWaiters, settleLoop, armIdleTimer, tupleOf, waiterObserve,
      normalizeErr, apply_ite SFState.flightErrorReports, apply_ite SFState.waiters]
  · rw [h2, h1]
    simp [sfStep, settleWaiters, settleLoop, armIdleTimer, tupleOf, waiterObserve,
      normalizeErr, apply_ite SFState.waiterResults, apply_ite SFState.waiters]

lemma releaseFlight_idle0 (t : Option Nat) (ios ab : Bool) (s : SFState) :
    releaseFlight ⟨t, some 0, ios, ab⟩ s = releaseFlight ⟨t, none, ios, ab⟩ s := by
  dsimp only [releaseFlight]

lemma safeRelease_idle0 (t : Option Nat) (ios ab : Bool) (fid : Nat) (s : SFState) :
    safeReleaseForThisFlight ⟨t, some 0, ios, ab⟩ fid s
      = safeReleaseForThisFlight ⟨t, none, ios, ab⟩ fid s := by
  unfold safeReleaseForThisFlight
  rw [releaseFlight_idle0]

lemma dec_idle0 (t : Option Nat) (ios ab : Bool) (s : SFState) :
    decAwaitFlightCount ⟨t, some 0, ios, ab⟩ s = decAwaitFlightCount ⟨t, none, ios, ab⟩ s := by
  unfold decAwaitFlightCount
  dsimp only
  rw [releaseFlight_idle0]
  simp [idleFalsy]

lemma settleLoop_idle0 (t : Option Nat) (ios ab : Bool) (fid : Nat)
    (tp : Option Val × Option Val) (ws : List (Nat × Bool)) :
    ∀ s : SFState, settleLoop ⟨t, some 0, ios, ab⟩ fid tp ws s
      = settleLoop ⟨t, none, ios, ab⟩ fid tp ws s := by
  induction ws with
  | nil => intro s; rfl
  | cons w ws ih =>
    intro s
    simp only [settleLoop]
    rw [dec_idle0, ih, ih]

lemma settleWaiters_idle0 (t : Option Nat) (ios ab : Bool) (fid : Nat)
    (tp : Option Val × Option Val) (s : SFState) :
    settleWaiters ⟨t, some 0, ios, ab⟩ fid tp s
      = settleWaiters ⟨t, none, ios, ab⟩ fid tp s := by
  unfold settleWaiters
  rw [settleLoop_idle0]

lemma attach_idle0 (t : Option Nat) (ios ab : Bool) (s : SFState) :
    attachWaiter ⟨t, some 0, ios, ab⟩ s = attachWaiter ⟨t, none, ios, ab⟩ s := by
  unfold attachWaiter
  cases s.activeFlight with
  | none => rfl
  | some fid =>
    dsimp only
    cases s.flightOutcomes.lookup fid with
    | none => rfl
    | some tp =>
      dsimp only
      rw [dec_idle0]

lemma arm_idle0 (t : Option Nat) (ios ab : Bool) (fid : Nat) (ok : Bool) (s : SFState) :
    armIdleTimer ⟨t, some 0, ios, ab⟩ fid ok s = armIdleTimer ⟨t, none, ios, ab⟩ fid ok s := by
  unfold armIdleTimer
  have h : idleDelay ⟨t, some 0, ios, ab⟩ ok = idleDelay ⟨t, none, ios, ab⟩ ok := by
    simp [idleDelay, idleFalsy]
  rw [h]

lemma sfStep_idle0 (t : Option Nat) (ios ab : Bool) (s : SFState) (e : SFEvent) :
    sfStep ⟨t, some 0, ios, ab⟩ s e = sfStep ⟨t, none, ios, ab⟩ s e := by
  cases e with
  | runCall refresh =>
    simp only [sfStep]
    rw [show startFlightIfNeeded ⟨t, some 0, ios, ab⟩ refresh
          { s with awaitCount := s.awaitCount + 1 }
        = startFlightIfNeeded ⟨t, none, ios, ab⟩ refresh
          { s with awaitCount := s.awaitCount + 1 } from by dsimp only [startFlightIfNeeded]]
    rw [attach_idle0]
  | flightSettle fid out =>
    simp only [sfStep]
    split
    · cases out with
      | ok v =>
        dsimp only
        rw [settleWaiters_idle0, arm_idle0]
      | error e =>
        dsimp only
        rw [settleWaiters_idle0, arm_idle0, safeRelease_idle0]
    · rfl
  | timerFire tid =>
    simp only [sfStep]
    cases s.liveTimers.find? (fun tr => tr.1 == tid) with
    | none => rfl
    | some tr =>
      dsimp only
      rw [safeRelease_idle0]
  | abortAllCall =>
    simp only [sfStep]
    split
    · rw [releaseFlight_idle0]
    · rfl

/-- C10: configuring `idleReleaseTime = 0` behaves exactly as configuring
no idle window at all: every event trace produces the identical state under
the two configurations (JavaScript falsiness makes `!idleReleaseTime` true
for both); the post-settle idle timer is armed with delay zero; and after a
settled flight's last waiter finishes, the flight is released immediately. -/
theorem idleZero_behaves_as_none (t : Option Nat) (ios ab : Bool) (es : List SFEvent)
    (ok : Bool) (v : Val) :
    sfTrace ⟨t, some 0, ios, ab⟩ es = sfTrace ⟨t, none, ios, ab⟩ es
    ∧ idleDelay ⟨t, some 0, ios, ab⟩ ok = 0
    ∧ (sfTrace ⟨t, some 0, ios, ab⟩ [.runCall false, .flightSettle 0 (.ok v)]).activeFlight
        = none
    ∧ (sfTrace ⟨t, some 0, ios, ab⟩ [.runCall false, .flightSettle 0 (.ok v)]).onReleaseCalls
        = 1 := by
  refine ⟨?_, rfl, ?_, ?_⟩
  · unfold sfTrace
    have h : ∀ (l : List SFEvent) (s : SFState),
        l.foldl (sfStep ⟨t, some 0, ios, ab⟩) s = l.foldl (sfStep ⟨t, none, ios, ab⟩) s := by
      intro l
      induction l with
      | nil => intro s; rfl
      | cons e l ih =>
        intro s
        simp only [List.foldl_cons]
        rw [sfStep_idle0, ih]
    exact h es SFState.init
  · rcases ab <;> rfl
  · rcases ab <;> rfl

end Controla
